import Mathlib

/-!
Verification of the phasefolder period-search core
(src/phasefolder/phasefolder.py) against its design specification.

The embedding models Python floats as exact rationals, and the final
square root of the residual objective as a real number.  Fallible
computations return an explicit error value:

* division by zero (the N - 2 denominator at N = 2) is modelled as
  PfError.domainError;
* the square root of a negative number (math.sqrt raising ValueError)
  is modelled as PfError.domainError;
* reading the loop-carried residual variable before any loop iteration
  assigned it (a Python NameError) is modelled as PfError.nameError;
* the while-loop of redef is embedded with a fuel parameter; exhausting
  the fuel is PfError.nonTermination, and the theorem
  redef_never_nonTermination shows fuel 20 is never exhausted, so the
  embedding agrees with the unbounded source loop on every input.

The folding operation is provided by the external lightkurve library and
is not part of this repository; it is modelled from the spec: each time
is mapped to a phase via time mod period and the samples are ordered by
phase (stably), and a non-positive period is a DomainError.
-/

namespace PhaseFolder

/-- One sample of a light curve: time, flux, flux error and an integer
quality flag (0 means clean). -/
structure Sample where
  time : ℚ
  flux : ℚ
  flux_err : ℚ
  quality : ℤ
deriving DecidableEq, Repr

/-- A light curve is an ordered sequence of samples. -/
abbrev LightCurve := List Sample

/-- Error outcomes of the embedded core. -/
inductive PfError where
  | domainError
  | nameError
  | nonTermination
deriving DecidableEq, Repr

/-- The quality == 0 subset of a light curve, as selected by
lc[lc.quality == 0] in the source. -/
def cleanSamples (lc : LightCurve) : LightCurve :=
  lc.filter (fun s => s.quality = 0)

/-- Modelled from the spec: the phase of a time value, time mod period. -/
def phaseOf (per t : ℚ) : ℚ := t - per * ⌊t / per⌋

/-- Modelled from the spec: the flux sequence of the curve folded on a
period.  The fold operation itself lives in the external lightkurve
library, not in this repository; the spec defines it as mapping each
time to a phase via time mod period and ordering the samples by phase.
The sort is stable. -/
def foldedFlux (lc : LightCurve) (per : ℚ) : List ℚ :=
  ((lc.map (fun s => (phaseOf per s.time, s.flux))).insertionSort
    (fun a b => a.1 ≤ b.1)).map (fun a => a.2)

/-- The median of a 13-element window: the 7th smallest element, as
computed by scipy.signal.medfilt for kernel_size 13. -/
def median13 (l : List ℚ) : ℚ := (l.insertionSort (fun a b => a ≤ b)).getD 6 0

/-- scipy.signal.medfilt with kernel_size=13: each output point is the
median of the 13-element window centred there, with zero padding at the
boundaries. -/
def medfilt13 (xs : List ℚ) : List ℚ :=
  let padded := List.replicate 6 0 ++ xs ++ List.replicate 6 0
  (List.range xs.length).map (fun i => median13 ((padded.drop i).take 13))

/-- The rational value under the square root in calc_residual_stdev:
ressqr / (len(cleanlightcurve) - 2).  Errors: a non-positive period is
rejected (spec-mandated DomainError for the external fold), N = 2 makes
the denominator zero (Python division by zero), and a negative quotient
would make math.sqrt raise (Python ValueError); both are domainError. -/
def calc_residual_radicand (lc : LightCurve) (per : ℚ) : Except PfError ℚ :=
  if per ≤ 0 then .error .domainError
  else
    let flux := foldedFlux (cleanSamples lc) per
    let compflux := medfilt13 flux
    let residual := List.zipWith (fun m f => m - f) compflux flux
    let ressqr := (residual.map (fun r => r ^ 2)).sum
    if (flux.length : ℚ) - 2 = 0 then .error .domainError
    else if ressqr / ((flux.length : ℚ) - 2) < 0 then .error .domainError
    else .ok (ressqr / ((flux.length : ℚ) - 2))

/-- calc_residual_stdev from the source: the square root of the mean
squared residual between the folded flux and its 13-point moving-median
smoothing, with denominator N - 2. -/
noncomputable def calc_residual_stdev (lc : LightCurve) (per : ℚ) :
    Except PfError ℝ :=
  (calc_residual_radicand lc per).map (fun q => Real.sqrt (q : ℝ))

/-- The transient search bracket of redef: (mini, midpt, maxi). -/
structure Bracket where
  mini : ℚ
  midpt : ℚ
  maxi : ℚ
deriving DecidableEq, Repr

/-- Outcome of one execution of the while-loop body of redef: either the
break (midpt was the minimum of the three probes) or the next bracket.
Both carry the midpt_rsd value computed during this iteration, since the
source keeps it in a loop-carried variable that outlives the loop. -/
inductive BodyOut where
  | brk (midpt : ℚ) (midpt_rsd : ℝ)
  | cont (st : Bracket) (midpt_rsd : ℝ)

open Classical in
/-- One execution of the while-loop body of redef (source lines 68..81):
evaluate the objective at (mini+midpt)/2, midpt and (maxi+midpt)/2;
break if midpt scored the minimum; otherwise shrink the bracket downward
when the lower probe beats the upper probe, else upward. -/
noncomputable def loopBody (score : ℚ → Except PfError ℝ) (st : Bracket) :
    Except PfError BodyOut :=
  match score ((st.mini + st.midpt) / 2) with
  | .error e => .error e
  | .ok min_rsd =>
    match score st.midpt with
    | .error e => .error e
    | .ok midpt_rsd =>
      match score ((st.maxi + st.midpt) / 2) with
      | .error e => .error e
      | .ok max_rsd =>
        if min (min midpt_rsd min_rsd) max_rsd = midpt_rsd then
          .ok (.brk st.midpt midpt_rsd)
        else if min_rsd < max_rsd then
          .ok (.cont ⟨st.mini, (st.mini + st.midpt) / 2, st.midpt⟩ midpt_rsd)
        else
          .ok (.cont ⟨st.midpt, (st.midpt + st.maxi) / 2, st.maxi⟩ midpt_rsd)

open Classical in
/-- The while-loop of redef (source line 63): while mini + 0.0001 < maxi,
run the body.  The loop of the source has no iteration bound; here it
carries a fuel parameter, and the theorem redef_never_nonTermination
proves that fuel 20 is never exhausted, so the embedding computes the
same answer as the unbounded source loop on every input.  The Option ℝ
argument is the loop-carried midpt_rsd variable, none before the first
iteration ever assigned it. -/
noncomputable def redefLoop (score : ℚ → Except PfError ℝ) :
    ℕ → Bracket → Option ℝ → Except PfError (ℚ × Option ℝ)
  | fuel, st, r? =>
    if st.mini + 0.0001 < st.maxi then
      match fuel with
      | 0 => .error .nonTermination
      | n + 1 =>
        match loopBody score st with
        | .error e => .error e
        | .ok (.brk m r) => .ok (m, some r)
        | .ok (.cont st2 r) => redefLoop score n st2 (some r)
    else
      .ok (st.midpt, r?)

open Classical in
/-- The code after the while-loop of redef (source lines 83..89): test
whether doubling, then halving, the midpoint beats midpt_rsd.  When the
loop body never ran, midpt_rsd was never assigned, and Python raises a
NameError at the first comparison; the comparison argument
score(2 * midpt) is evaluated before the unbound read, so an error there
surfaces first, exactly as in Python evaluation order. -/
noncomputable def redefPost (score : ℚ → Except PfError ℝ) (midpt : ℚ)
    (r? : Option ℝ) : Except PfError ℚ :=
  match r? with
  | none =>
    match score (2 * midpt) with
    | .error e => .error e
    | .ok _ => .error .nameError
  | some midpt_rsd =>
    match score (2 * midpt) with
    | .error e => .error e
    | .ok d =>
      if d < midpt_rsd then .ok (2 * midpt)
      else
        match score (midpt / 2) with
        | .error e => .error e
        | .ok h => if h < midpt_rsd then .ok (midpt / 2) else .ok midpt

/-- The initial bracket of redef (source lines 59..61). -/
def initBracket (g : ℚ) : Bracket :=
  ⟨max (0.7 * g) 0.042, g, min (1.3 * g) 15⟩

/-- redef from the source: bracketed local search for the best period
followed by the doubling and halving check. -/
noncomputable def redef (lc : LightCurve) (g : ℚ) : Except PfError ℚ :=
  match redefLoop (calc_residual_stdev lc) 20 (initBracket g) none with
  | .error e => .error e
  | .ok (midpt, r?) => redefPost (calc_residual_stdev lc) midpt r?

/-- The three-sample light curve used as a concrete witness input. -/
def lcW : LightCurve := [⟨0, 1, 0, 0⟩, ⟨1, 2, 0, 0⟩, ⟨2, 3, 0, 0⟩]

/-- An eight-sample light curve whose residual objective prefers the
period 0.0372 over 0.0324 and 0.03726; it drives the redef loop into
the downward branch from the initial bracket of guess 0.0324. -/
def lcX : LightCurve :=
  [⟨6/5, 2, 0, 0⟩, ⟨9/5, 1, 0, 0⟩, ⟨12/5, 2, 0, 0⟩, ⟨19/5, 2, 0, 0⟩,
   ⟨41/5, 2, 0, 0⟩, ⟨101/10, 3, 0, 0⟩, ⟨137/10, 3, 0, 0⟩, ⟨83/5, 2, 0, 0⟩]

/-- A light curve with a single sample whose quality flag is nonzero,
so its clean subset is empty. -/
def lcBadQuality : LightCurve := [⟨0, 5, 0, 1⟩]

/-! ### Helper lemmas -/

theorem radicand_ok_nonneg {lc : LightCurve} {per : ℚ} {q : ℚ}
    (h : calc_residual_radicand lc per = .ok q) : 0 ≤ q := by
  unfold calc_residual_radicand at h
  dsimp only at h
  split at h
  · cases h
  · split at h
    · cases h
    · split at h
      · cases h
      · rename_i hneg
        cases h
        exact le_of_not_lt hneg

theorem radicand_error_eq_domain {lc : LightCurve} {per : ℚ} {e : PfError}
    (h : calc_residual_radicand lc per = .error e) : e = .domainError := by
  unfold calc_residual_radicand at h
  dsimp only at h
  split at h
  · cases h; rfl
  · split at h
    · cases h; rfl
    · split at h
      · cases h; rfl
      · cases h

theorem stdev_of_radicand {lc : LightCurve} {per : ℚ} {q : ℚ}
    (h : calc_residual_radicand lc per = .ok q) :
    calc_residual_stdev lc per = .ok (Real.sqrt (q : ℝ)) := by
  unfold calc_residual_stdev
  rw [h]
  rfl

theorem stdev_of_radicand_error {lc : LightCurve} {per : ℚ} {e : PfError}
    (h : calc_residual_radicand lc per = .error e) :
    calc_residual_stdev lc per = .error e := by
  unfold calc_residual_stdev
  rw [h]
  rfl

theorem stdev_error_eq_domain {lc : LightCurve} {per : ℚ} {e : PfError}
    (h : calc_residual_stdev lc per = .error e) : e = .domainError := by
  unfold calc_residual_stdev at h
  cases hr : calc_residual_radicand lc per with
  | error e2 =>
    rw [hr] at h
    cases h
    exact radicand_error_eq_domain hr
  | ok q =>
    rw [hr] at h
    cases h

theorem stdev_ne_nonTermination (lc : LightCurve) (per : ℚ) :
    calc_residual_stdev lc per ≠ .error .nonTermination := by
  intro h
  cases stdev_error_eq_domain h

theorem loopBody_eval {score : ℚ → Except PfError ℝ} {st : Bracket}
    {a b c : ℝ}
    (ha : score ((st.mini + st.midpt) / 2) = .ok a)
    (hb : score st.midpt = .ok b)
    (hc : score ((st.maxi + st.midpt) / 2) = .ok c) :
    loopBody score st =
      if min (min b a) c = b then .ok (.brk st.midpt b)
      else if a < c then
        .ok (.cont ⟨st.mini, (st.mini + st.midpt) / 2, st.midpt⟩ b)
      else
        .ok (.cont ⟨st.midpt, (st.midpt + st.maxi) / 2, st.maxi⟩ b) := by
  unfold loopBody
  rw [ha, hb, hc]

theorem loopBody_error1 {score : ℚ → Except PfError ℝ} {st : Bracket}
    {e : PfError} (h1 : score ((st.mini + st.midpt) / 2) = .error e) :
    loopBody score st = .error e := by
  unfold loopBody
  rw [h1]

theorem loopBody_error2 {score : ℚ → Except PfError ℝ} {st : Bracket}
    {a : ℝ} {e : PfError} (h1 : score ((st.mini + st.midpt) / 2) = .ok a)
    (h2 : score st.midpt = .error e) :
    loopBody score st = .error e := by
  unfold loopBody
  rw [h1, h2]

theorem loopBody_error3 {score : ℚ → Except PfError ℝ} {st : Bracket}
    {a b : ℝ} {e : PfError} (h1 : score ((st.mini + st.midpt) / 2) = .ok a)
    (h2 : score st.midpt = .ok b)
    (h3 : score ((st.maxi + st.midpt) / 2) = .error e) :
    loopBody score st = .error e := by
  unfold loopBody
  rw [h1, h2, h3]

theorem loopBody_error_source {score : ℚ → Except PfError ℝ} {st : Bracket}
    {e : PfError} (h : loopBody score st = .error e) :
    ∃ q, score q = .error e := by
  cases h1 : score ((st.mini + st.midpt) / 2) with
  | error e1 =>
    rw [loopBody_error1 h1] at h
    cases h
    exact ⟨_, h1⟩
  | ok a =>
    cases h2 : score st.midpt with
    | error e2 =>
      rw [loopBody_error2 h1 h2] at h
      cases h
      exact ⟨_, h2⟩
    | ok b =>
      cases h3 : score ((st.maxi + st.midpt) / 2) with
      | error e3 =>
        rw [loopBody_error3 h1 h2 h3] at h
        cases h
        exact ⟨_, h3⟩
      | ok c =>
        rw [loopBody_eval h1 h2 h3] at h
        split at h
        · cases h
        · split at h <;> cases h

theorem loopBody_cont_cases {score : ℚ → Except PfError ℝ} {st st2 : Bracket}
    {r : ℝ} (h : loopBody score st = .ok (.cont st2 r)) :
    st2 = ⟨st.mini, (st.mini + st.midpt) / 2, st.midpt⟩ ∨
    st2 = ⟨st.midpt, (st.midpt + st.maxi) / 2, st.maxi⟩ := by
  cases h1 : score ((st.mini + st.midpt) / 2) with
  | error e1 => rw [loopBody_error1 h1] at h; cases h
  | ok a =>
    cases h2 : score st.midpt with
    | error e2 => rw [loopBody_error2 h1 h2] at h; cases h
    | ok b =>
      cases h3 : score ((st.maxi + st.midpt) / 2) with
      | error e3 => rw [loopBody_error3 h1 h2 h3] at h; cases h
      | ok c =>
        rw [loopBody_eval h1 h2 h3] at h
        split at h
        · cases h
        · split at h
          · cases h; left; rfl
          · cases h; right; rfl

theorem redefLoop_exit {score : ℚ → Except PfError ℝ} {fuel : ℕ}
    {st : Bracket} {r? : Option ℝ} (h : ¬ (st.mini + 0.0001 < st.maxi)) :
    redefLoop score fuel st r? = .ok (st.midpt, r?) := by
  rw [redefLoop.eq_def]
  exact if_neg h

theorem redefLoop_zero {score : ℚ → Except PfError ℝ} {st : Bracket}
    {r? : Option ℝ} (h : st.mini + 0.0001 < st.maxi) :
    redefLoop score 0 st r? = .error .nonTermination := by
  rw [redefLoop.eq_def]
  exact if_pos h

theorem redefLoop_step {score : ℚ → Except PfError ℝ} {n : ℕ} {st : Bracket}
    {r? : Option ℝ} (h : st.mini + 0.0001 < st.maxi) :
    redefLoop score (n + 1) st r? =
      match loopBody score st with
      | .error e => .error e
      | .ok (.brk m r) => .ok (m, some r)
      | .ok (.cont st2 r) => redefLoop score n st2 (some r) := by
  rw [redefLoop.eq_def]
  exact if_pos h


theorem redefPost_none_ok {score : ℚ → Except PfError ℝ} {m : ℚ} {d : ℝ}
    (h : score (2 * m) = .ok d) :
    redefPost score m none = .error .nameError := by
  unfold redefPost
  rw [h]

theorem redefPost_none_error {score : ℚ → Except PfError ℝ} {m : ℚ}
    {e : PfError} (h : score (2 * m) = .error e) :
    redefPost score m none = .error e := by
  unfold redefPost
  rw [h]

theorem redefPost_double {score : ℚ → Except PfError ℝ} {m : ℚ} {r d : ℝ}
    (h : score (2 * m) = .ok d) (hd : d < r) :
    redefPost score m (some r) = .ok (2 * m) := by
  unfold redefPost
  simp only [h]
  rw [if_pos hd]

theorem redefPost_half {score : ℚ → Except PfError ℝ} {m : ℚ} {r d hh : ℝ}
    (h : score (2 * m) = .ok d) (hd : ¬ d < r)
    (h2 : score (m / 2) = .ok hh) (hh2 : hh < r) :
    redefPost score m (some r) = .ok (m / 2) := by
  unfold redefPost
  simp only [h, h2]
  rw [if_neg hd, if_pos hh2]

theorem redefPost_keep {score : ℚ → Except PfError ℝ} {m : ℚ} {r d hh : ℝ}
    (h : score (2 * m) = .ok d) (hd : ¬ d < r)
    (h2 : score (m / 2) = .ok hh) (hh2 : ¬ hh < r) :
    redefPost score m (some r) = .ok m := by
  unfold redefPost
  simp only [h, h2]
  rw [if_neg hd, if_neg hh2]

theorem redefPost_some_error1 {score : ℚ → Except PfError ℝ} {m : ℚ} {r : ℝ}
    {e : PfError} (h : score (2 * m) = .error e) :
    redefPost score m (some r) = .error e := by
  unfold redefPost
  rw [h]

theorem redefPost_some_error2 {score : ℚ → Except PfError ℝ} {m : ℚ} {r d : ℝ}
    {e : PfError} (h : score (2 * m) = .ok d) (hd : ¬ d < r)
    (h2 : score (m / 2) = .error e) :
    redefPost score m (some r) = .error e := by
  unfold redefPost
  simp only [h, h2]
  rw [if_neg hd]

theorem redefPost_ne_nonTermination (lc : LightCurve) (m : ℚ)
    (r? : Option ℝ) :
    redefPost (calc_residual_stdev lc) m r? ≠ .error .nonTermination := by
  cases r? with
  | none =>
    cases h : calc_residual_stdev lc (2 * m) with
    | error e =>
      rw [redefPost_none_error h, stdev_error_eq_domain h]
      simp
    | ok d =>
      rw [redefPost_none_ok h]
      simp
  | some r =>
    cases h : calc_residual_stdev lc (2 * m) with
    | error e =>
      rw [redefPost_some_error1 h, stdev_error_eq_domain h]
      simp
    | ok d =>
      by_cases hd : d < r
      · rw [redefPost_double h hd]
        simp
      · cases h2 : calc_residual_stdev lc (m / 2) with
        | error e =>
          rw [redefPost_some_error2 h hd h2, stdev_error_eq_domain h2]
          simp
        | ok hh =>
          by_cases hh2 : hh < r
          · rw [redefPost_half h hd h2 hh2]; simp
          · rw [redefPost_keep h hd h2 hh2]; simp

theorem redef_of_loop_error {lc : LightCurve} {g : ℚ} {e : PfError}
    (hl : redefLoop (calc_residual_stdev lc) 20 (initBracket g) none
            = .error e) :
    redef lc g = .error e := by
  unfold redef
  rw [hl]

theorem redef_of_loop_ok {lc : LightCurve} {g m : ℚ} {r? : Option ℝ}
    (hl : redefLoop (calc_residual_stdev lc) 20 (initBracket g) none
            = .ok (m, r?)) :
    redef lc g = redefPost (calc_residual_stdev lc) m r? := by
  unfold redef
  rw [hl]

theorem redefLoop_no_guard {score : ℚ → Except PfError ℝ}
    (hs : ∀ q, score q ≠ .error .nonTermination) :
    ∀ (fuel : ℕ) (st : Bracket) (r? : Option ℝ),
      st.midpt = (st.mini + st.maxi) / 2 →
      st.maxi - st.mini ≤ 0.0001 * 2 ^ fuel →
      redefLoop score fuel st r? ≠ .error .nonTermination := by
  intro fuel
  induction fuel with
  | zero =>
    intro st r? hmid hw
    have hcond : ¬ (st.mini + 0.0001 < st.maxi) := by
      intro hc
      have h1 : (0.0001 : ℚ) * 2 ^ 0 = 0.0001 := by norm_num
      rw [h1] at hw
      linarith
    rw [redefLoop_exit hcond]
    simp
  | succ n ih =>
    intro st r? hmid hw
    by_cases hcond : st.mini + 0.0001 < st.maxi
    · rw [redefLoop_step hcond]
      cases hb : loopBody score st with
      | error e =>
        intro hcontr
        have hc2 : (Except.error e : Except PfError (ℚ × Option ℝ))
            = .error .nonTermination := hcontr
        obtain ⟨q, hq⟩ := loopBody_error_source hb
        injection hc2 with hc3
        subst hc3
        exact hs q hq
      | ok out =>
        cases out with
        | brk m r => simp
        | cont st2 r =>
          show redefLoop score n st2 (some r) ≠ .error .nonTermination
          have hpow : (0.0001 : ℚ) * 2 ^ (n + 1) = 2 * (0.0001 * 2 ^ n) := by
            ring
          rw [hpow] at hw
          rcases loopBody_cont_cases hb with h2 | h2 <;> subst h2
          · refine ih _ _ rfl ?_
            show st.midpt - st.mini ≤ 0.0001 * 2 ^ n
            rw [hmid]
            linarith
          · refine ih _ _ rfl ?_
            show st.maxi - st.midpt ≤ 0.0001 * 2 ^ n
            rw [hmid]
            linarith
    · rw [redefLoop_exit hcond]
      simp

theorem redefLoop_init_no_guard (lc : LightCurve) (g : ℚ) :
    redefLoop (calc_residual_stdev lc) 20 (initBracket g) none
      ≠ .error .nonTermination := by
  have hs : ∀ q, calc_residual_stdev lc q ≠ .error .nonTermination :=
    fun q => stdev_ne_nonTermination lc q
  by_cases hcond : (initBracket g).mini + 0.0001 < (initBracket g).maxi
  · have hbound : g < 22 := by
      have h1 : 0.7 * g ≤ max (0.7 * g) 0.042 := le_max_left _ _
      have h2 : min (1.3 * g) 15 ≤ 15 := min_le_right _ _
      have h3 : (initBracket g).mini = max (0.7 * g) 0.042 := rfl
      have h4 : (initBracket g).maxi = min (1.3 * g) 15 := rfl
      rw [h3, h4] at hcond
      linarith
    have h20 : (20 : ℕ) = 19 + 1 := by norm_num
    rw [h20, redefLoop_step hcond]
    cases hb : loopBody (calc_residual_stdev lc) (initBracket g) with
    | error e =>
      intro hcontr
      have hc2 : (Except.error e : Except PfError (ℚ × Option ℝ))
          = .error .nonTermination := hcontr
      obtain ⟨q, hq⟩ := loopBody_error_source hb
      injection hc2 with hc3
      subst hc3
      exact hs q hq
    | ok out =>
      cases out with
      | brk m r => simp
      | cont st2 r =>
        show redefLoop (calc_residual_stdev lc) 19 st2 (some r)
              ≠ .error .nonTermination
        have hpow : (0.0001 : ℚ) * 2 ^ 19 = 52.4288 := by norm_num
        rcases loopBody_cont_cases hb with h2 | h2 <;> subst h2
        · refine redefLoop_no_guard hs 19 _ _ rfl ?_
          show (initBracket g).midpt - (initBracket g).mini ≤ 0.0001 * 2 ^ 19
          have h1 : 0.7 * g ≤ max (0.7 * g) 0.042 := le_max_left _ _
          have h3 : (initBracket g).mini = max (0.7 * g) 0.042 := rfl
          have h5 : (initBracket g).midpt = g := rfl
          rw [h3, h5, hpow]
          linarith
        · refine redefLoop_no_guard hs 19 _ _ rfl ?_
          show (initBracket g).maxi - (initBracket g).midpt ≤ 0.0001 * 2 ^ 19
          have h2 : min (1.3 * g) 15 ≤ 1.3 * g := min_le_left _ _
          have h4 : (initBracket g).maxi = min (1.3 * g) 15 := rfl
          have h5 : (initBracket g).midpt = g := rfl
          rw [h4, h5, hpow]
          linarith
  · rw [redefLoop_exit hcond]
    simp


/-! ### Claim theorems -/

/-- C6: for every light curve and every positive initial period guess,
the Harmonic Refiner terminates: the embedded loop never exhausts its
iteration bound, so redef never reports the non-termination guard. -/
theorem redef_never_nonTermination (lc : LightCurve) (g : ℚ) (hg : 0 < g) :
    redef lc g ≠ .error .nonTermination := by
  cases hl : redefLoop (calc_residual_stdev lc) 20 (initBracket g) none with
  | error e =>
    rw [redef_of_loop_error hl]
    intro h
    injection h with h2
    subst h2
    exact redefLoop_init_no_guard lc g hl
  | ok out =>
    obtain ⟨m, r?⟩ := out
    rw [redef_of_loop_ok hl]
    exact redefPost_ne_nonTermination lc m r?

/-- Witness for C6 at the concrete curve lcW and guess 1. -/
theorem redef_never_nonTermination_witness :
    redef lcW 1 ≠ Except.error PfError.nonTermination :=
  redef_never_nonTermination lcW 1 (by norm_num)

/-- C8: on entry to the Harmonic Refiner with initial guess g, the
bracket is exactly mid = g, mini = max(0.7 g, 0.042),
maxi = min(1.3 g, 15.0), for every positive g. -/
theorem initBracket_spec (g : ℚ) (hg : 0 < g) :
    (initBracket g).midpt = g ∧
    (initBracket g).mini = max (0.7 * g) 0.042 ∧
    (initBracket g).maxi = min (1.3 * g) 15 :=
  ⟨rfl, rfl, rfl⟩

/-- Witness for C8 at g = 1. -/
theorem initBracket_spec_witness :
    (initBracket 1).midpt = 1 ∧ (initBracket 1).mini = 0.7 ∧
    (initBracket 1).maxi = 1.3 := by
  obtain ⟨h1, h2, h3⟩ := initBracket_spec 1 (by norm_num)
  refine ⟨h1, ?_, ?_⟩
  · rw [h2, max_eq_left (by norm_num : (0.042 : ℚ) ≤ 0.7 * 1)]
    norm_num
  · rw [h3, min_eq_left (by norm_num : (1.3 : ℚ) * 1 ≤ 15)]
    norm_num

/-- C10: the Residual Objective re-filters its input to quality == 0
internally, so its score is invariant under pre-filtering the curve to
its clean subset; the pre-filtering of the facade is redundant for the
scoring step. -/
theorem score_invariant_clean (lc : LightCurve) (per : ℚ) :
    calc_residual_stdev lc per = calc_residual_stdev (cleanSamples lc) per := by
  have hcc : cleanSamples (cleanSamples lc) = cleanSamples lc := by
    unfold cleanSamples
    rw [List.filter_filter]
    simp
  unfold calc_residual_stdev
  unfold calc_residual_radicand
  rw [hcc]

/-- C9: when the initial bracket already satisfies the exit condition
(mini + 0.0001 is not less than maxi), the while-loop body never runs,
the loop-carried residual variable is never assigned, and redef fails
with the unbound-variable error, provided the doubling probe itself
scores without a domain error (Python evaluates that probe first). -/
theorem redef_skip_nameError (lc : LightCurve) (g : ℚ) (hg : 0 < g)
    (hskip : min (1.3 * g) 15 ≤ max (0.7 * g) 0.042 + 0.0001)
    {v : ℝ} (hok : calc_residual_stdev lc (2 * g) = .ok v) :
    redef lc g = .error .nameError := by
  have hcond : ¬ ((initBracket g).mini + 0.0001 < (initBracket g).maxi) := by
    have h3 : (initBracket g).mini = max (0.7 * g) 0.042 := rfl
    have h4 : (initBracket g).maxi = min (1.3 * g) 15 := rfl
    rw [h3, h4]
    intro hc
    linarith
  have hl : redefLoop (calc_residual_stdev lc) 20 (initBracket g) none
      = .ok ((initBracket g).midpt, none) := redefLoop_exit hcond
  rw [redef_of_loop_ok hl]
  exact redefPost_none_ok
    (show calc_residual_stdev lc (2 * (initBracket g).midpt) = .ok v from hok)

/-- Witness for C9 at the concrete curve lcW and guess 22. -/
theorem redef_skip_nameError_witness :
    redef lcW 22 = Except.error PfError.nameError := by
  have hrad : calc_residual_radicand lcW (2 * 22) = .ok 14 := by
    with_unfolding_all rfl
  exact redef_skip_nameError lcW 22 (by norm_num)
    (by rw [min_eq_right (by norm_num : (15 : ℚ) ≤ 1.3 * 22),
            max_eq_left (by norm_num : (0.042 : ℚ) ≤ 0.7 * 22)]
        norm_num)
    (stdev_of_radicand hrad)

/-- C2: each iteration of the refinement loop evaluates the objective at
the three points (mini+mid)/2, mid and (maxi+mid)/2; if the score of mid
is the minimum of the three, the loop stops with result mid; otherwise,
if the lower probe scores strictly less than the upper probe, the
bracket shrinks downward, else it shrinks upward. -/
theorem loop_iteration_spec (lc : LightCurve) (st : Bracket) (fuel : ℕ)
    (r? : Option ℝ) (a b c : ℝ)
    (hcond : st.mini + 0.0001 < st.maxi)
    (ha : calc_residual_stdev lc ((st.mini + st.midpt) / 2) = .ok a)
    (hb : calc_residual_stdev lc st.midpt = .ok b)
    (hc : calc_residual_stdev lc ((st.maxi + st.midpt) / 2) = .ok c) :
    (b ≤ a ∧ b ≤ c →
      redefLoop (calc_residual_stdev lc) (fuel + 1) st r?
        = .ok (st.midpt, some b)) ∧
    (¬ (b ≤ a ∧ b ≤ c) → a < c →
      redefLoop (calc_residual_stdev lc) (fuel + 1) st r?
        = redefLoop (calc_residual_stdev lc) fuel
            ⟨st.mini, (st.mini + st.midpt) / 2, st.midpt⟩ (some b)) ∧
    (¬ (b ≤ a ∧ b ≤ c) → ¬ a < c →
      redefLoop (calc_residual_stdev lc) (fuel + 1) st r?
        = redefLoop (calc_residual_stdev lc) fuel
            ⟨st.midpt, (st.midpt + st.maxi) / 2, st.maxi⟩ (some b)) := by
  have hmin : (min (min b a) c = b) ↔ (b ≤ a ∧ b ≤ c) := by
    constructor
    · intro h
      constructor
      · calc b = min (min b a) c := h.symm
          _ ≤ min b a := min_le_left _ _
          _ ≤ a := min_le_right _ _
      · calc b = min (min b a) c := h.symm
          _ ≤ c := min_le_right _ _
    · rintro ⟨h1, h2⟩
      rw [min_eq_left h1, min_eq_left h2]
  refine ⟨?_, ?_, ?_⟩
  · intro hbc
    rw [redefLoop_step hcond, loopBody_eval ha hb hc,
        if_pos (hmin.mpr hbc)]
  · intro hbc hac
    rw [redefLoop_step hcond, loopBody_eval ha hb hc,
        if_neg (fun h => hbc (hmin.mp h)), if_pos hac]
  · intro hbc hac
    rw [redefLoop_step hcond, loopBody_eval ha hb hc,
        if_neg (fun h => hbc (hmin.mp h)), if_neg hac]

/-- Witness for C2: on the three-sample curve lcW every period scores
the same value sqrt 14, so from the bracket (1, 2, 3) the loop stops at
once with midpoint 2. -/
theorem loop_iteration_spec_witness :
    redefLoop (calc_residual_stdev lcW) 1 ⟨1, 2, 3⟩ none
      = .ok (2, some (Real.sqrt ((14 : ℚ) : ℝ))) := by
  have ha : calc_residual_radicand lcW (((1 : ℚ) + 2) / 2) = .ok 14 := by
    with_unfolding_all rfl
  have hb : calc_residual_radicand lcW (2 : ℚ) = .ok 14 := by
    with_unfolding_all rfl
  have hc : calc_residual_radicand lcW (((3 : ℚ) + 2) / 2) = .ok 14 := by
    with_unfolding_all rfl
  exact (loop_iteration_spec lcW ⟨1, 2, 3⟩ 0 none _ _ _
    (by norm_num)
    (stdev_of_radicand ha) (stdev_of_radicand hb) (stdev_of_radicand hc)).1
    ⟨le_refl _, le_refl _⟩

/-- C3: the Ambiguity Corrector returns 2 c when score(2 c) beats the
candidate score strictly, else c/2 when score(c/2) beats it strictly,
else c unchanged; every successful result is one of these three. -/
theorem correct_spec (lc : LightCurve) (cand : ℚ) (s d : ℝ)
    (hd : calc_residual_stdev lc (2 * cand) = .ok d) :
    (d < s →
      redefPost (calc_residual_stdev lc) cand (some s) = .ok (2 * cand)) ∧
    (¬ d < s → ∀ hh, calc_residual_stdev lc (cand / 2) = .ok hh →
      (hh < s →
        redefPost (calc_residual_stdev lc) cand (some s) = .ok (cand / 2)) ∧
      (¬ hh < s →
        redefPost (calc_residual_stdev lc) cand (some s) = .ok cand)) ∧
    (∀ r, redefPost (calc_residual_stdev lc) cand (some s) = .ok r →
      r = 2 * cand ∨ r = cand / 2 ∨ r = cand) := by
  refine ⟨fun h => redefPost_double hd h,
    fun h hh h2 => ⟨fun hlt => redefPost_half hd h h2 hlt,
      fun hge => redefPost_keep hd h h2 hge⟩, ?_⟩
  intro r hr
  by_cases hds : d < s
  · rw [redefPost_double hd hds] at hr
    cases hr
    left
    rfl
  · cases h2 : calc_residual_stdev lc (cand / 2) with
    | error e =>
      rw [redefPost_some_error2 hd hds h2] at hr
      cases hr
    | ok hh =>
      by_cases hhs : hh < s
      · rw [redefPost_half hd hds h2 hhs] at hr
        cases hr
        right
        left
        rfl
      · rw [redefPost_keep hd hds h2 hhs] at hr
        cases hr
        right
        right
        rfl

/-- Witness for C3 on lcW with candidate 1 and candidate score sqrt 14:
neither doubling nor halving wins, so the candidate is kept. -/
theorem correct_spec_witness :
    redefPost (calc_residual_stdev lcW) 1 (some (Real.sqrt ((14 : ℚ) : ℝ)))
      = .ok 1 := by
  have h1 : calc_residual_radicand lcW (2 * 1 : ℚ) = .ok 14 := by
    with_unfolding_all rfl
  have h2 : calc_residual_radicand lcW ((1 : ℚ) / 2) = .ok 14 := by
    with_unfolding_all rfl
  exact ((correct_spec lcW 1 (Real.sqrt ((14 : ℚ) : ℝ))
      (Real.sqrt ((14 : ℚ) : ℝ)) (stdev_of_radicand h1)).2.1
    (lt_irrefl _) (Real.sqrt ((14 : ℚ) : ℝ)) (stdev_of_radicand h2)).2
    (lt_irrefl _)


/-- C1: for every curve with at least three clean samples and every
positive period, the Residual Objective equals the square root of the
sum of squared residuals between the folded flux and its 13-point
moving-median smoothing, divided by N - 2, where N is the number of
clean samples. -/
theorem score_formula (lc : LightCurve) (per : ℚ) (hper : 0 < per)
    (hN : 3 ≤ (cleanSamples lc).length) :
    calc_residual_stdev lc per =
      .ok (Real.sqrt
        ((((List.zipWith (fun m f => m - f)
                (medfilt13 (foldedFlux (cleanSamples lc) per))
                (foldedFlux (cleanSamples lc) per)).map
              (fun r => r ^ 2)).sum
            / (((cleanSamples lc).length : ℚ) - 2) : ℚ) : ℝ)) := by
  have hlen : (foldedFlux (cleanSamples lc) per).length
      = (cleanSamples lc).length := by
    unfold foldedFlux
    rw [List.length_map, List.length_insertionSort, List.length_map]
  have hnn : (0 : ℚ) ≤
      ((List.zipWith (fun m f => m - f)
          (medfilt13 (foldedFlux (cleanSamples lc) per))
          (foldedFlux (cleanSamples lc) per)).map (fun r => r ^ 2)).sum := by
    apply List.sum_nonneg
    intro x hx
    obtain ⟨y, hy, hxy⟩ := List.mem_map.mp hx
    rw [← hxy]
    exact sq_nonneg y
  have hcast : (3 : ℚ) ≤ ((cleanSamples lc).length : ℚ) := by
    exact_mod_cast hN
  have hrad : calc_residual_radicand lc per =
      .ok (((List.zipWith (fun m f => m - f)
              (medfilt13 (foldedFlux (cleanSamples lc) per))
              (foldedFlux (cleanSamples lc) per)).map (fun r => r ^ 2)).sum
            / (((cleanSamples lc).length : ℚ) - 2)) := by
    unfold calc_residual_radicand
    rw [if_neg (not_le.mpr hper)]
    dsimp only
    rw [hlen]
    rw [if_neg (by intro h; linarith), if_neg (by
      intro h
      have hden : (0 : ℚ) < ((cleanSamples lc).length : ℚ) - 2 := by linarith
      have := div_nonneg hnn (le_of_lt hden)
      linarith)]
  rw [stdev_of_radicand hrad]

/-- Witness for C1 at lcW and period 1: the folded fluxes are 1, 2, 3,
the median smoothing is zero everywhere, and the score is sqrt 14. -/
theorem score_formula_witness :
    calc_residual_stdev lcW 1 = .ok (Real.sqrt ((14 : ℚ) : ℝ)) := by
  have h := score_formula lcW 1 (by norm_num) (by with_unfolding_all decide)
  rw [h]
  have hval : (((List.zipWith (fun m f => m - f)
          (medfilt13 (foldedFlux (cleanSamples lcW) 1))
          (foldedFlux (cleanSamples lcW) 1)).map (fun r => r ^ 2)).sum
        / (((cleanSamples lcW).length : ℚ) - 2)) = (14 : ℚ) := by
    with_unfolding_all rfl
  rw [hval]

/-- C5 failing-input evaluation: on a curve whose clean subset is empty
(one sample with quality flag 1) and period 1, the code returns the
score 0 silently instead of failing with a DomainError, although N = 0
is at most 2; the spec mandates a DomainError for every N at most 2. -/
theorem score_empty_fold_silent :
    calc_residual_stdev lcBadQuality 1 = .ok 0 := by
  have h : calc_residual_radicand lcBadQuality 1 = .ok 0 := by
    with_unfolding_all rfl
  rw [stdev_of_radicand h]
  norm_num


/-! ### Concrete evaluation of a full loop iteration on lcX -/

theorem lcX_init : initBracket 0.0324 = ⟨0.042, 0.0324, 0.04212⟩ := by
  unfold initBracket
  rw [max_eq_right (by norm_num : (0.7 : ℚ) * 0.0324 ≤ 0.042),
      min_eq_left (by norm_num : (1.3 : ℚ) * 0.0324 ≤ 15)]
  norm_num

theorem lcX_stdev_a :
    calc_residual_stdev lcX (((0.042 : ℚ) + 0.0324) / 2)
      = .ok (Real.sqrt ((5/6 : ℚ) : ℝ)) :=
  stdev_of_radicand (by with_unfolding_all rfl)

theorem lcX_stdev_b :
    calc_residual_stdev lcX (0.0324 : ℚ)
      = .ok (Real.sqrt ((7/6 : ℚ) : ℝ)) :=
  stdev_of_radicand (by with_unfolding_all rfl)

theorem lcX_stdev_c :
    calc_residual_stdev lcX (((0.04212 : ℚ) + 0.0324) / 2)
      = .ok (Real.sqrt ((7/6 : ℚ) : ℝ)) :=
  stdev_of_radicand (by with_unfolding_all rfl)

theorem sqrt56_lt_sqrt76 :
    Real.sqrt ((5/6 : ℚ) : ℝ) < Real.sqrt ((7/6 : ℚ) : ℝ) := by
  apply Real.sqrt_lt_sqrt
  · positivity
  · exact_mod_cast (by norm_num : (5/6 : ℚ) < 7/6)

theorem lcX_body :
    loopBody (calc_residual_stdev lcX) ⟨0.042, 0.0324, 0.04212⟩
      = .ok (.cont ⟨0.042, 0.0372, 0.0324⟩ (Real.sqrt ((7/6 : ℚ) : ℝ))) := by
  have hab := sqrt56_lt_sqrt76
  have hne : ¬ (min (min (Real.sqrt ((7/6 : ℚ) : ℝ))
        (Real.sqrt ((5/6 : ℚ) : ℝ))) (Real.sqrt ((7/6 : ℚ) : ℝ))
      = Real.sqrt ((7/6 : ℚ) : ℝ)) := by
    rw [min_eq_right (le_of_lt hab), min_eq_left (le_of_lt hab)]
    exact ne_of_lt hab
  rw [loopBody_eval lcX_stdev_a lcX_stdev_b lcX_stdev_c, if_neg hne,
      if_pos hab]
  have hmid : ((0.042 : ℚ) + 0.0324) / 2 = 0.0372 := by norm_num
  rw [hmid]

/-- C4 failing-input evaluation: from the positive guess 0.0324 on the
curve lcX, the loop runs one downward iteration and then exits through
the tolerance condition, returning midpoint 0.0372 paired with the
midpt_rsd computed for the PREVIOUS midpoint 0.0324, namely sqrt(7/6);
the Residual Objective at the returned midpoint 0.0372 is sqrt(5/6),
which differs, so the score handed to the doubling check is not the
score of the converged period. -/
theorem stale_score_divergence :
    redefLoop (calc_residual_stdev lcX) 20 (initBracket 0.0324) none
      = .ok (0.0372, some (Real.sqrt ((7/6 : ℚ) : ℝ))) ∧
    calc_residual_stdev lcX 0.0372 = .ok (Real.sqrt ((5/6 : ℚ) : ℝ)) ∧
    Real.sqrt ((5/6 : ℚ) : ℝ) ≠ Real.sqrt ((7/6 : ℚ) : ℝ) := by
  refine ⟨?_, ?_, ne_of_lt sqrt56_lt_sqrt76⟩
  · rw [lcX_init]
    have h20 : (20 : ℕ) = 19 + 1 := by norm_num
    have hcond : (⟨0.042, 0.0324, 0.04212⟩ : Bracket).mini + 0.0001
        < (⟨0.042, 0.0324, 0.04212⟩ : Bracket).maxi := by
      show (0.042 : ℚ) + 0.0001 < 0.04212
      norm_num
    rw [h20, redefLoop_step hcond, lcX_body]
    have hexit : ¬ ((⟨0.042, 0.0372, 0.0324⟩ : Bracket).mini + 0.0001
        < (⟨0.042, 0.0372, 0.0324⟩ : Bracket).maxi) := by
      show ¬ ((0.042 : ℚ) + 0.0001 < 0.0324)
      norm_num
    exact redefLoop_exit hexit
  · exact stdev_of_radicand (by with_unfolding_all rfl)

/-- C7 counterexample: from the positive initial guess 0.0324 on the
curve lcX the loop condition holds, the first iteration executes the
downward branch, and the resulting bracket has mini = 0.042 and
maxi = 0.0324, violating mini < maxi. -/
theorem loop_invariant_counterexample :
    (0 : ℚ) < 0.0324 ∧
    (initBracket 0.0324).mini + 0.0001 < (initBracket 0.0324).maxi ∧
    loopBody (calc_residual_stdev lcX) (initBracket 0.0324)
      = .ok (.cont ⟨0.042, 0.0372, 0.0324⟩ (Real.sqrt ((7/6 : ℚ) : ℝ))) ∧
    ¬ ((0.042 : ℚ) < 0.0324) := by
  refine ⟨by norm_num, ?_, ?_, by norm_num⟩
  · rw [lcX_init]
    show (0.042 : ℚ) + 0.0001 < 0.04212
    norm_num
  · rw [lcX_init]
    exact lcX_body

/-- C7 amended: when the initial guess lies strictly between the clamps
0.042 and 15, the initial bracket satisfies mini < mid < maxi, every
loop iteration preserves mini < mid < maxi (hence mini < maxi), and the
loop exits through its tolerance condition whenever
maxi - mini < 0.0001.  For guesses outside the clamp range a single
iteration can produce mini not less than maxi. -/
theorem bracket_invariant_amended :
    (∀ g : ℚ, 0.042 < g → g < 15 →
      (initBracket g).mini < (initBracket g).midpt ∧
      (initBracket g).midpt < (initBracket g).maxi) ∧
    (∀ (score : ℚ → Except PfError ℝ) (st st2 : Bracket) (r : ℝ),
      st.mini < st.midpt → st.midpt < st.maxi →
      loopBody score st = .ok (.cont st2 r) →
      st2.mini < st2.midpt ∧ st2.midpt < st2.maxi) ∧
    (∀ (score : ℚ → Except PfError ℝ) (fuel : ℕ) (st : Bracket)
      (r? : Option ℝ), st.maxi - st.mini < 0.0001 →
      redefLoop score fuel st r? = .ok (st.midpt, r?)) := by
  refine ⟨?_, ?_, ?_⟩
  · intro g h1 h2
    constructor
    · show max (0.7 * g) 0.042 < g
      exact max_lt (by linarith) h1
    · show g < min (1.3 * g) 15
      exact lt_min (by linarith) h2
  · intro score st st2 r hlo hhi hbody
    rcases loopBody_cont_cases hbody with h | h <;> subst h
    · exact ⟨by show st.mini < (st.mini + st.midpt) / 2; linarith,
        by show (st.mini + st.midpt) / 2 < st.midpt; linarith⟩
    · exact ⟨by show st.midpt < (st.midpt + st.maxi) / 2; linarith,
        by show (st.midpt + st.maxi) / 2 < st.maxi; linarith⟩
  · intro score fuel st r? hw
    exact redefLoop_exit (by intro hc; linarith)

/-- Witness facts for the amended C7: three further probe scores of lcX
and a concrete upward iteration that keeps the bracket ordered. -/
theorem lcX_stdev_d :
    calc_residual_stdev lcX (((0.03 : ℚ) + 0.04) / 2)
      = .ok (Real.sqrt ((7/6 : ℚ) : ℝ)) :=
  stdev_of_radicand (by with_unfolding_all rfl)

theorem lcX_stdev_e :
    calc_residual_stdev lcX (0.04 : ℚ)
      = .ok (Real.sqrt ((7/6 : ℚ) : ℝ)) :=
  stdev_of_radicand (by with_unfolding_all rfl)

theorem lcX_stdev_f :
    calc_residual_stdev lcX (((0.05 : ℚ) + 0.04) / 2)
      = .ok (Real.sqrt ((1/3 : ℚ) : ℝ)) :=
  stdev_of_radicand (by with_unfolding_all rfl)

theorem sqrt13_lt_sqrt76 :
    Real.sqrt ((1/3 : ℚ) : ℝ) < Real.sqrt ((7/6 : ℚ) : ℝ) := by
  apply Real.sqrt_lt_sqrt
  · positivity
  · exact_mod_cast (by norm_num : (1/3 : ℚ) < 7/6)

theorem lcX_body2 :
    loopBody (calc_residual_stdev lcX) ⟨0.03, 0.04, 0.05⟩
      = .ok (.cont ⟨0.04, ((0.04 : ℚ) + 0.05) / 2, 0.05⟩
          (Real.sqrt ((7/6 : ℚ) : ℝ))) := by
  have hcb := sqrt13_lt_sqrt76
  have hne : ¬ (min (min (Real.sqrt ((7/6 : ℚ) : ℝ))
        (Real.sqrt ((7/6 : ℚ) : ℝ))) (Real.sqrt ((1/3 : ℚ) : ℝ))
      = Real.sqrt ((7/6 : ℚ) : ℝ)) := by
    rw [min_self, min_eq_right (le_of_lt hcb)]
    exact ne_of_lt hcb
  rw [loopBody_eval lcX_stdev_d lcX_stdev_e lcX_stdev_f, if_neg hne,
      if_neg (not_lt.mpr (le_of_lt hcb))]

/-- Witness for the amended C7: the initial bracket of guess 1 is
strictly ordered; the concrete upward iteration of lcX from the ordered
bracket (0.03, 0.04, 0.05) keeps the strict order; a bracket of width
0.00005 exits at once. -/
theorem bracket_invariant_amended_witness :
    ((initBracket 1).mini < (initBracket 1).midpt ∧
      (initBracket 1).midpt < (initBracket 1).maxi) ∧
    ((0.04 : ℚ) < ((0.04 : ℚ) + 0.05) / 2 ∧
      ((0.04 : ℚ) + 0.05) / 2 < 0.05) ∧
    redefLoop (calc_residual_stdev lcX) 5 ⟨1, 2, 1.00005⟩ none
      = .ok (2, none) := by
  refine ⟨bracket_invariant_amended.1 1 (by norm_num) (by norm_num),
    ?_, ?_⟩
  · exact bracket_invariant_amended.2.1 (calc_residual_stdev lcX)
      ⟨0.03, 0.04, 0.05⟩ ⟨0.04, ((0.04 : ℚ) + 0.05) / 2, 0.05⟩ _
      (by norm_num) (by norm_num) lcX_body2
  · exact bracket_invariant_amended.2.2 (calc_residual_stdev lcX) 5
      ⟨1, 2, 1.00005⟩ none
      (by show (1.00005 : ℚ) - 1 < 0.0001; norm_num)

end PhaseFolder
